import Mathlib

/-!
Verification of the statistical fitting utility
`examples/density_pericenter_fit_utils.py` of the TangoSIDM_satellites
repository.  The numeric code is embedded over the real numbers: NumPy
arrays of a common length become functions `Fin n → ℝ`, elementwise
operations become pointwise definitions, `np.sum` becomes a `Finset`
sum, `10**t` becomes the real power `(10 : ℝ) ^ t`, `np.log` becomes
`Real.log`, `np.log10` becomes `Real.logb 10`, and the value `-np.inf`
returned by the prior is modelled with `EReal`, whose bottom element is
negative infinity.
-/

namespace DensityPericenterFit

/-- Model: power-law function, f_theta = 10^q r^m, returned as log10 f_theta.
Embeds `log_model` of the source. -/
def log_model (x q m : ℝ) : ℝ :=
  q + m * x

/-- Natural logarithm of the prior probability: 0 if the parameters are in
range, and negative infinity otherwise.  Embeds `log_prior` of the source:
the source initializes the result to `-np.inf` and overwrites it with `0.0`
when `-2 < q < 2 and -2 < m < 2`. -/
noncomputable def log_prior (theta : ℝ × ℝ) : EReal :=
  let q := theta.1
  let m := theta.2
  if -2 < q ∧ q < 2 ∧ -2 < m ∧ m < 2 then (0 : EReal) else ⊥

/-- Natural logarithm of the joint likelihood for the real-data variant.
Embeds `log_likelihood` of the source:
sigma2 = yerr**2 + (m * 10**model)**2 * (xerr / 10**x)**2,
ll = (10**y - 10**model)**2 / sigma2 + log(2 pi sigma2),
result = -0.5 * sum(ll). -/
noncomputable def log_likelihood {n : ℕ} (theta : ℝ × ℝ)
    (x y xerr yerr : Fin n → ℝ) : ℝ :=
  let q := theta.1
  let m := theta.2
  let model : Fin n → ℝ := fun i => log_model (x i) q m;
  let sigma2 : Fin n → ℝ := fun i =>
    (yerr i ^ 2 + (m * (10 : ℝ) ^ model i) ^ 2 * (xerr i / (10 : ℝ) ^ x i) ^ 2);
  let ll : Fin n → ℝ := fun i =>
    (((10 : ℝ) ^ y i - (10 : ℝ) ^ model i) ^ 2 / sigma2 i
      + Real.log (2 * Real.pi * sigma2 i));
  -0.5 * ∑ i, ll i

/-- The variance term of `log_likelihood`, exposed for the analysis of the
unguarded division: sigma2 = yerr**2 + (m * 10**model)**2 * (xerr / 10**x)**2
at a single data point. -/
noncomputable def sigma2 (m model x xerr yerr : ℝ) : ℝ :=
  yerr ^ 2 + (m * (10 : ℝ) ^ model) ^ 2 * (xerr / (10 : ℝ) ^ x) ^ 2

/-- Natural logarithm of the joint likelihood for the simulation variant.
Embeds `log_likelihood_sim` of the source:
sigma2 = yerr**2, ll = (10**y - 10**model)**2 / sigma2,
result = -0.5 * sum(ll); no normalization term. -/
noncomputable def log_likelihood_sim {n : ℕ} (theta : ℝ × ℝ)
    (x y yerr : Fin n → ℝ) : ℝ :=
  let q := theta.1
  let m := theta.2
  let model : Fin n → ℝ := fun i => log_model (x i) q m;
  let sigma2 : Fin n → ℝ := fun i => yerr i ^ 2;
  let ll : Fin n → ℝ := fun i =>
    (((10 : ℝ) ^ y i - (10 : ℝ) ^ model i) ^ 2 / sigma2 i);
  -0.5 * ∑ i, ll i

/-- Natural logarithm of the joint posterior, real-data variant.  Embeds
`log_posterior` of the source: if the prior is not finite the function
returns `-np.inf` at once, otherwise the sum of prior and likelihood. -/
noncomputable def log_posterior {n : ℕ} (theta : ℝ × ℝ)
    (x y xerr yerr : Fin n → ℝ) : EReal :=
  let lp := log_prior theta
  if lp = ⊥ ∨ lp = ⊤ then ⊥
  else lp + (log_likelihood theta x y xerr yerr : ℝ)

/-- Natural logarithm of the joint posterior, simulation variant.  Embeds
`log_posterior_sim` of the source. -/
noncomputable def log_posterior_sim {n : ℕ} (theta : ℝ × ℝ)
    (x y yerr : Fin n → ℝ) : EReal :=
  let lp := log_prior theta
  if lp = ⊥ ∨ lp = ⊤ then ⊥
  else lp + (log_likelihood_sim theta x y yerr : ℝ)

/-- Helper for the emcee chain slice v[start :: thin]: keeps the head of the
list and then every thin-th element after it. -/
def everyNth {α : Type} (thin : ℕ) : List α → List α
  | [] => []
  | a :: rest => a :: everyNth thin (List.drop (thin - 1) rest)
termination_by l => l.length
decreasing_by
  simp only [List.length_drop, List.length_cons]
  omega

/-- Modelled from the spec: emcee EnsembleSampler.get_chain with discard and
thin (the sampler library is not part of this repository).  It returns the
slice chain[discard + thin - 1 : len(chain) : thin], that is, it discards the
first steps and keeps every thin-th of the remaining ones. -/
def get_chain {α : Type} (discard thin : ℕ) (chain : List α) : List α :=
  everyNth thin (List.drop (discard + thin - 1) chain)

/-- Modelled from the spec: the deterministic tail of run_mcmc of the source.
The random ensemble chain produced by emcee (2000 steps of 64 walkers, from a
Gaussian cloud around soln.x) is abstracted as the argument chain, a list of
steps, each a list of per-walker parameter samples; run_mcmc then returns
sampler.get_chain(discard=100, thin=15, flat=True), the thinned steps
flattened across walkers. -/
def run_mcmc_samples (chain : List (List (ℝ × ℝ))) : List (ℝ × ℝ) :=
  (get_chain 100 15 chain).flatten

/-- Modelled from the spec: the deterministic tail of run_mcmc_sim of the
source, identical to run_mcmc_samples (same discard, thin and flattening). -/
def run_mcmc_sim_samples (chain : List (List (ℝ × ℝ))) : List (ℝ × ℝ) :=
  (get_chain 100 15 chain).flatten

/-- Modelled from the spec: the argument tuple the fitting routines hand to
scipy.optimize.minimize (scipy is not part of this repository): the seed
planted just before the call, the objective, the initial point and the
optional box bounds. -/
structure MinimizeCall where
  seed : ℕ
  objective : ℝ × ℝ → ℝ
  initial : ℝ × ℝ
  bounds : Option ((ℝ × ℝ) × (ℝ × ℝ))

/-- Array preparation of run_best_fit: x = np.log10(r_p[0, :]). -/
noncomputable def best_fit_x {k : ℕ} (r_p : Fin 3 → Fin k → ℝ) : Fin k → ℝ :=
  fun i => Real.logb 10 (r_p 0 i)

/-- Array preparation of run_best_fit:
xerr = np.sqrt(r_p[1, :]**2 + r_p[2, :]**2). -/
noncomputable def best_fit_xerr {k : ℕ} (r_p : Fin 3 → Fin k → ℝ) : Fin k → ℝ :=
  fun i => Real.sqrt (r_p 1 i ^ 2 + r_p 2 i ^ 2)

/-- Array preparation of run_best_fit: y = np.log10(rho_150pc[0, :] / 1e7). -/
noncomputable def best_fit_y {k : ℕ} (rho_150pc : Fin 3 → Fin k → ℝ) :
    Fin k → ℝ :=
  fun i => Real.logb 10 (rho_150pc 0 i / 1e7)

/-- Array preparation of run_best_fit:
yerr = np.sqrt(rho_150pc[1, :]**2 + rho_150pc[2, :]**2) / 1e7. -/
noncomputable def best_fit_yerr {k : ℕ} (rho_150pc : Fin 3 → Fin k → ℝ) :
    Fin k → ℝ :=
  fun i => Real.sqrt (rho_150pc 1 i ^ 2 + rho_150pc 2 i ^ 2) / 1e7

/-- The optimization call issued by run_best_fit of the source:
np.random.seed(42); minimize(lambda args: -log_likelihood(args), [1, 0],
args=(x, y, xerr, yerr)) with no bounds. -/
noncomputable def run_best_fit_call {k : ℕ}
    (r_p rho_150pc : Fin 3 → Fin k → ℝ) : MinimizeCall where
  seed := 42
  objective := fun theta =>
    -log_likelihood theta (best_fit_x r_p) (best_fit_y rho_150pc)
      (best_fit_xerr r_p) (best_fit_yerr rho_150pc)
  initial := (1, 0)
  bounds := none

/-- Array preparation of run_best_fit_for_sim: x = np.log10(r_p). -/
noncomputable def sim_fit_x {k : ℕ} (r_p : Fin k → ℝ) : Fin k → ℝ :=
  fun i => Real.logb 10 (r_p i)

/-- Array preparation of run_best_fit_for_sim:
y = np.log10(rho_150pc / 1e7). -/
noncomputable def sim_fit_y {k : ℕ} (rho_150pc : Fin k → ℝ) : Fin k → ℝ :=
  fun i => Real.logb 10 (rho_150pc i / 1e7)

/-- Array preparation of run_best_fit_for_sim:
yerr = np.ones(len(y)) * 1e5 / 1e7, a constant array independent of the
input data. -/
noncomputable def sim_fit_yerr (k : ℕ) : Fin k → ℝ :=
  fun _ => 1 * 1e5 / 1e7

/-- The optimization call issued by run_best_fit_for_sim of the source:
np.random.seed(42); minimize(lambda args: -log_likelihood_sim(args), [1, 0],
args=(x, y, yerr), bounds=((-2, 2), (-2, 2))). -/
noncomputable def run_best_fit_for_sim_call {k : ℕ}
    (r_p rho_150pc : Fin k → ℝ) : MinimizeCall where
  seed := 42
  objective := fun theta =>
    -log_likelihood_sim theta (sim_fit_x r_p) (sim_fit_y rho_150pc)
      (sim_fit_yerr k)
  initial := (1, 0)
  bounds := some ((-2, 2), (-2, 2))

/-- run_best_fit_for_sim of the source: it issues the optimization call and
returns the optimum soln.x = (q, m).  The scipy optimizer itself is not part
of this repository and is abstracted as the function argument minimize. -/
noncomputable def run_best_fit_for_sim (minimize : MinimizeCall → ℝ × ℝ)
    {k : ℕ} (r_p rho_150pc : Fin k → ℝ) : ℝ × ℝ :=
  minimize (run_best_fit_for_sim_call r_p rho_150pc)

/-- The optimization call issued by run_best_fit_for_sim_with_mcmc of the
source: identical preparation and minimize arguments as
run_best_fit_for_sim; the routine then runs run_mcmc_sim from the optimum. -/
noncomputable def run_best_fit_for_sim_with_mcmc_call {k : ℕ}
    (r_p rho_150pc : Fin k → ℝ) : MinimizeCall where
  seed := 42
  objective := fun theta =>
    -log_likelihood_sim theta (sim_fit_x r_p) (sim_fit_y rho_150pc)
      (sim_fit_yerr k)
  initial := (1, 0)
  bounds := some ((-2, 2), (-2, 2))

/-- The real-data likelihood written exactly as the specification words it,
with the effective variance spelled out per index:
-0.5 times the sum over i of (10^y_i - 10^(q + m x_i))^2 / sigma_i^2
+ log(2 pi sigma_i^2), where sigma_i^2 = yerr_i^2
+ (m 10^(q + m x_i))^2 (xerr_i / 10^x_i)^2. -/
noncomputable def log_likelihood_specFormula {n : ℕ} (q m : ℝ)
    (x y xerr yerr : Fin n → ℝ) : ℝ :=
  -0.5 * ∑ i, (((10 : ℝ) ^ y i - (10 : ℝ) ^ (q + m * x i)) ^ 2
      / (yerr i ^ 2
          + (m * (10 : ℝ) ^ (q + m * x i)) ^ 2 * (xerr i / (10 : ℝ) ^ x i) ^ 2)
    + Real.log (2 * Real.pi * (yerr i ^ 2
          + (m * (10 : ℝ) ^ (q + m * x i)) ^ 2
            * (xerr i / (10 : ℝ) ^ x i) ^ 2)))

/-- The prior never takes the value plus infinity: it is either 0 or bottom. -/
theorem log_prior_ne_top (theta : ℝ × ℝ) : log_prior theta ≠ ⊤ := by
  simp only [log_prior]
  split
  · simp
  · simp

/-- C4: log_prior is 0 strictly inside the box (-2,2) x (-2,2) and negative
infinity at or outside the boundary; in particular at q = 2, q = -2, m = 2 or
m = -2 the prior is negative infinity, not 0. -/
theorem log_prior_box (q m : ℝ) :
    ((-2 < q ∧ q < 2 ∧ -2 < m ∧ m < 2) → log_prior (q, m) = 0) ∧
    ((q ≤ -2 ∨ 2 ≤ q ∨ m ≤ -2 ∨ 2 ≤ m) → log_prior (q, m) = ⊥) ∧
    log_prior (2, m) = ⊥ ∧ log_prior (-2, m) = ⊥ ∧
    log_prior (q, 2) = ⊥ ∧ log_prior (q, -2) = ⊥ := by
  refine ⟨fun h => ?_, fun h => ?_, ?_, ?_, ?_, ?_⟩
  · simp only [log_prior]
    exact if_pos h
  · simp only [log_prior]
    refine if_neg ?_
    rintro ⟨h1, h2, h3, h4⟩
    have h1' : (-2 : ℝ) < q := h1
    have h2' : q < 2 := h2
    have h3' : (-2 : ℝ) < m := h3
    have h4' : m < 2 := h4
    rcases h with h | h | h | h <;> linarith
  · norm_num [log_prior]
  · norm_num [log_prior]
  · norm_num [log_prior]
  · norm_num [log_prior]

/-- C4 witness: the prior at (0, 0) is 0 and at the boundary point (2, 0)
it is negative infinity. -/
theorem log_prior_box_witness :
    log_prior (0, 0) = 0 ∧ log_prior (2, 0) = ⊥ :=
  ⟨(log_prior_box 0 0).1 (by norm_num), (log_prior_box 2 0).2.2.1⟩

/-- C5: both posteriors short-circuit to negative infinity whenever the prior
is negative infinity, regardless of the likelihood inputs, and otherwise
return the sum of the prior and the corresponding likelihood. -/
theorem log_posterior_short_circuit {n : ℕ} (theta : ℝ × ℝ)
    (x y xerr yerr : Fin n → ℝ) :
    (log_prior theta = ⊥ →
      log_posterior theta x y xerr yerr = ⊥ ∧
      log_posterior_sim theta x y yerr = ⊥) ∧
    (log_prior theta ≠ ⊥ →
      log_posterior theta x y xerr yerr
        = log_prior theta + (log_likelihood theta x y xerr yerr : ℝ) ∧
      log_posterior_sim theta x y yerr
        = log_prior theta + (log_likelihood_sim theta x y yerr : ℝ)) := by
  constructor
  · intro h
    constructor
    · simp only [log_posterior]
      rw [if_pos (Or.inl h)]
    · simp only [log_posterior_sim]
      rw [if_pos (Or.inl h)]
  · intro h
    have hcond : ¬(log_prior theta = ⊥ ∨ log_prior theta = ⊤) := by
      rintro (hc | hc)
      · exact h hc
      · exact log_prior_ne_top theta hc
    constructor
    · simp only [log_posterior]
      rw [if_neg hcond]
    · simp only [log_posterior_sim]
      rw [if_neg hcond]

/-- C5 witness: at the rejected point (3, 0) both posteriors are negative
infinity, and at the accepted point (0, 0) the posterior is prior plus
likelihood, all on a singleton data set of zeros. -/
theorem log_posterior_short_circuit_witness :
    (log_posterior (3, 0) (fun _ : Fin 1 => 0) (fun _ => 0) (fun _ => 0)
        (fun _ => 0) = ⊥ ∧
      log_posterior_sim (3, 0) (fun _ : Fin 1 => 0) (fun _ => 0)
        (fun _ => 0) = ⊥) ∧
    (log_posterior (0, 0) (fun _ : Fin 1 => 0) (fun _ => 0) (fun _ => 0)
        (fun _ => 0)
      = log_prior (0, 0)
        + (log_likelihood (0, 0) (fun _ : Fin 1 => 0) (fun _ => 0)
            (fun _ => 0) (fun _ => 0) : ℝ)) :=
  ⟨log_posterior_short_circuit (3, 0) (fun _ : Fin 1 => 0) (fun _ => 0)
      (fun _ => 0) (fun _ => 0) |>.1
      (by norm_num [log_prior]),
    (log_posterior_short_circuit (0, 0) (fun _ : Fin 1 => 0) (fun _ => 0)
      (fun _ => 0) (fun _ => 0) |>.2
      (by norm_num [log_prior])).1⟩

/-- C2: the real-data likelihood equals the Gaussian log-likelihood formula
of the specification, with effective variance combining the y-uncertainty
with the linearized propagation of the x-uncertainty through the local slope
of the model, and with the normalization term log(2 pi sigma^2). -/
theorem log_likelihood_eq_specFormula {n : ℕ} (q m : ℝ)
    (x y xerr yerr : Fin n → ℝ) :
    log_likelihood (q, m) x y xerr yerr
      = log_likelihood_specFormula q m x y xerr yerr := rfl

/-- C3: the simulation likelihood equals the real-data likelihood at zero
x-uncertainty with the Gaussian normalization term added back, and it equals
the plain weighted sum of squared residuals with no normalization term. -/
theorem log_likelihood_sim_vs_real {n : ℕ} (theta : ℝ × ℝ)
    (x y yerr : Fin n → ℝ) :
    log_likelihood_sim theta x y yerr
      = log_likelihood theta x y (fun _ => 0) yerr
        + 0.5 * ∑ i, Real.log (2 * Real.pi * yerr i ^ 2) ∧
    log_likelihood_sim theta x y yerr
      = -0.5 * ∑ i, ((10 : ℝ) ^ y i
          - (10 : ℝ) ^ (theta.1 + theta.2 * x i)) ^ 2 / yerr i ^ 2 := by
  constructor
  · simp only [log_likelihood, log_likelihood_sim, log_model]
    simp only [zero_div, ne_eq, OfNat.ofNat_ne_zero, not_false_eq_true,
      zero_pow, mul_zero, add_zero]
    rw [Finset.sum_add_distrib]
    ring
  · rfl

/-- C6: both likelihood variants depend on the observations only through the
squared residual: flipping the sign of every residual 10^y_i - 10^model_i
leaves them unchanged. -/
theorem log_likelihood_residual_flip {n : ℕ} (theta : ℝ × ℝ)
    (x xerr yerr y1 y2 : Fin n → ℝ)
    (h : ∀ i, (10 : ℝ) ^ y2 i - (10 : ℝ) ^ (theta.1 + theta.2 * x i)
        = -((10 : ℝ) ^ y1 i - (10 : ℝ) ^ (theta.1 + theta.2 * x i))) :
    log_likelihood theta x y1 xerr yerr = log_likelihood theta x y2 xerr yerr ∧
    log_likelihood_sim theta x y1 yerr = log_likelihood_sim theta x y2 yerr := by
  have hsq : ∀ i, ((10 : ℝ) ^ y2 i - (10 : ℝ) ^ (theta.1 + theta.2 * x i)) ^ 2
      = ((10 : ℝ) ^ y1 i - (10 : ℝ) ^ (theta.1 + theta.2 * x i)) ^ 2 := by
    intro i
    rw [h i]
    ring
  constructor
  · simp only [log_likelihood, log_model]
    congr 1
    refine Finset.sum_congr rfl fun i _ => ?_
    rw [hsq i]
  · simp only [log_likelihood_sim, log_model]
    congr 1
    refine Finset.sum_congr rfl fun i _ => ?_
    rw [hsq i]

/-- C6 witness: at theta = (0, 0) over a singleton zero data set the residual
of y2 = 0 is the negation of the residual of y1 = 0, and both likelihood
variants agree on y1 and y2. -/
theorem log_likelihood_residual_flip_witness :
    log_likelihood ((0 : ℝ), (0 : ℝ)) (fun _ : Fin 1 => 0) (fun _ => 0)
        (fun _ => 1) (fun _ => 1)
      = log_likelihood ((0 : ℝ), (0 : ℝ)) (fun _ : Fin 1 => 0) (fun _ => 0)
        (fun _ => 1) (fun _ => 1) :=
  (log_likelihood_residual_flip ((0 : ℝ), (0 : ℝ)) (fun _ : Fin 1 => 0)
    (fun _ => 1) (fun _ => 1) (fun _ => 0) (fun _ => 0)
    (fun i => by norm_num)).1

/-- Evaluating the head-and-every-thin-th slice of a list keeps
ceiling(length / thin) elements when thin = 15. -/
theorem everyNth_15_length {α : Type} (l : List α) :
    (everyNth 15 l).length = (l.length + 14) / 15 := by
  suffices H : ∀ (n : ℕ) (l : List α), l.length ≤ n →
      (everyNth 15 l).length = (l.length + 14) / 15 from H l.length l le_rfl
  intro n
  induction n with
  | zero =>
    intro l hl
    have : l = [] := List.eq_nil_of_length_eq_zero (Nat.le_zero.mp hl)
    subst this
    simp [everyNth]
  | succ n ih =>
    intro l hl
    cases l with
    | nil => simp [everyNth]
    | cons a rest =>
      rw [everyNth]
      simp only [List.length_cons]
      rw [ih (List.drop 14 rest)
        (by simp only [List.length_drop]
            simp only [List.length_cons] at hl
            omega)]
      simp only [List.length_drop]
      omega

/-- The head-and-every-thin-th slice of a list is a sublist of it. -/
theorem everyNth_sublist {α : Type} (thin : ℕ) (l : List α) :
    (everyNth thin l).Sublist l := by
  suffices H : ∀ (n : ℕ) (l : List α), l.length ≤ n →
      (everyNth thin l).Sublist l from H l.length l le_rfl
  intro n
  induction n with
  | zero =>
    intro l hl
    have : l = [] := List.eq_nil_of_length_eq_zero (Nat.le_zero.mp hl)
    subst this
    simp [everyNth]
  | succ n ih =>
    intro l hl
    cases l with
    | nil => simp [everyNth]
    | cons a rest =>
      rw [everyNth]
      refine List.Sublist.cons₂ a ?_
      refine (ih (List.drop (thin - 1) rest) ?_).trans (List.drop_sublist _ _)
      simp only [List.length_drop]
      simp only [List.length_cons] at hl
      omega

/-- C1: the flattened chain run_mcmc returns after discard = 100 and
thin = 15 holds exactly walkers times (steps - discard) / thin samples: for
the fixed 2000-step chain of 64 walkers, 64 * ((2000 - 100) / 15) = 8064. -/
theorem run_mcmc_sample_count (chain : List (List (ℝ × ℝ)))
    (hsteps : chain.length = 2000)
    (hwalkers : ∀ s ∈ chain, s.length = 64) :
    (run_mcmc_samples chain).length = 64 * ((2000 - 100) / 15) ∧
    (run_mcmc_samples chain).length = 8064 := by
  have hsum : ∀ m : List (List (ℝ × ℝ)), (∀ s ∈ m, s.length = 64) →
      (m.map List.length).sum = 64 * m.length := by
    intro m
    induction m with
    | nil => simp
    | cons s t ih =>
      intro h
      simp only [List.map_cons, List.sum_cons, List.length_cons]
      rw [h s (by simp), ih fun u hu => h u (by simp [hu])]
      ring
  have hmem : ∀ s ∈ get_chain 100 15 chain, s.length = 64 := by
    intro s hs
    refine hwalkers s ?_
    have hsub : (get_chain 100 15 chain).Sublist chain :=
      (everyNth_sublist 15 _).trans (List.drop_sublist _ _)
    exact hsub.subset hs
  have hlen : (run_mcmc_samples chain).length = 64 * ((2000 - 100) / 15) := by
    unfold run_mcmc_samples
    rw [List.length_flatten, hsum _ hmem]
    unfold get_chain
    rw [everyNth_15_length]
    simp only [List.length_drop, hsteps]
  exact ⟨hlen, by rw [hlen]⟩

/-- C1 witness: a concrete 2000-step chain of 64 walkers flattens to
64 * ((2000 - 100) / 15) samples. -/
theorem run_mcmc_sample_count_witness :
    (run_mcmc_samples (List.replicate 2000 (List.replicate 64 ((0 : ℝ), (0 : ℝ))))).length
      = 64 * ((2000 - 100) / 15) :=
  (run_mcmc_sample_count (List.replicate 2000 (List.replicate 64 ((0 : ℝ), (0 : ℝ))))
    (List.length_replicate 2000 _)
    (fun s hs => by rw [List.eq_of_mem_replicate hs]
                    exact List.length_replicate 64 _)).1

/-- C7: run_best_fit seeds the generator with 42 and minimizes the negated
real-data likelihood from the fixed initial guess (1, 0) with no bounds,
while the two simulation fits minimize the negated simulation likelihood
from the same guess with the explicit bounds ((-2, 2), (-2, 2)), the box of
the prior: every point strictly inside those bounds has prior 0. -/
theorem best_fit_minimize_calls {k : ℕ} (r_p3 rho3 : Fin 3 → Fin k → ℝ)
    (r_p rho : Fin k → ℝ) :
    (run_best_fit_call r_p3 rho3).seed = 42 ∧
    (run_best_fit_call r_p3 rho3).initial = (1, 0) ∧
    (run_best_fit_call r_p3 rho3).bounds = none ∧
    (run_best_fit_call r_p3 rho3).objective = (fun theta =>
      -log_likelihood theta (best_fit_x r_p3) (best_fit_y rho3)
        (best_fit_xerr r_p3) (best_fit_yerr rho3)) ∧
    (run_best_fit_for_sim_call r_p rho).seed = 42 ∧
    (run_best_fit_for_sim_call r_p rho).initial = (1, 0) ∧
    (run_best_fit_for_sim_call r_p rho).bounds = some ((-2, 2), (-2, 2)) ∧
    (run_best_fit_for_sim_call r_p rho).objective = (fun theta =>
      -log_likelihood_sim theta (sim_fit_x r_p) (sim_fit_y rho)
        (sim_fit_yerr k)) ∧
    run_best_fit_for_sim_with_mcmc_call r_p rho
      = run_best_fit_for_sim_call r_p rho ∧
    (∀ q m : ℝ, (-2 < q ∧ q < 2 ∧ -2 < m ∧ m < 2) → log_prior (q, m) = 0) :=
  ⟨rfl, rfl, rfl, rfl, rfl, rfl, rfl, rfl, rfl,
    fun _ _ h => by simp only [log_prior]; exact if_pos h⟩

/-- C7 witness: on concrete singleton input arrays the simulation fit call
carries the bounds ((-2, 2), (-2, 2)) and the point (0, 0) strictly inside
them has prior 0. -/
theorem best_fit_minimize_calls_witness :
    (run_best_fit_for_sim_call (fun _ : Fin 1 => 1) (fun _ => 1)).bounds
      = some ((-2, 2), (-2, 2)) ∧
    log_prior (0, 0) = 0 :=
  ⟨(best_fit_minimize_calls (fun _ _ => 1) (fun _ _ => 1)
      (fun _ : Fin 1 => 1) (fun _ => 1)).2.2.2.2.2.2.1,
    (best_fit_minimize_calls (fun _ _ => 1) (fun _ _ => 1)
      (fun _ : Fin 1 => 1) (fun _ => 1)).2.2.2.2.2.2.2.2.2 0 0 (by norm_num)⟩

/-- C8: run_best_fit_for_sim is deterministic: any fixed optimizer applied
to equal input arrays r_p and rho_150pc yields the identical pair (q, m).
In the embedding the only potential nondeterminism, the NumPy random state,
is pinned by the seed 42 recorded in the optimization call. -/
theorem run_best_fit_for_sim_deterministic (minimize : MinimizeCall → ℝ × ℝ)
    {k : ℕ} (r_p rho_150pc r_p2 rho2 : Fin k → ℝ)
    (h1 : r_p = r_p2) (h2 : rho_150pc = rho2) :
    run_best_fit_for_sim minimize r_p rho_150pc
      = run_best_fit_for_sim minimize r_p2 rho2 := by
  rw [h1, h2]

/-- C8 witness: the determinism theorem applied to a concrete optimizer and
concrete equal singleton arrays. -/
theorem run_best_fit_for_sim_deterministic_witness :
    run_best_fit_for_sim (fun _ => (0, 0)) (fun _ : Fin 1 => 1) (fun _ => 1)
      = run_best_fit_for_sim (fun _ => (0, 0)) (fun _ : Fin 1 => 1)
        (fun _ => 1) :=
  run_best_fit_for_sim_deterministic (fun _ => (0, 0)) (fun _ : Fin 1 => 1)
    (fun _ => 1) (fun _ : Fin 1 => 1) (fun _ => 1) rfl rfl

/-- C9: the variance divisor of the likelihoods can be exactly zero and no
guard or validation intervenes: with xerr = 0 and yerr = 0 the divisor
sigma2 vanishes for every theta and x, and the likelihoods still return a
plain real number computed through that division (no error value or
exception path exists; in this real-number embedding division by zero
yields 0, while in floating point the non-finite result propagates). -/
theorem likelihood_division_unguarded :
    (∀ m model x : ℝ, sigma2 m model x 0 0 = 0) ∧
    log_likelihood ((0 : ℝ), (0 : ℝ)) (fun _ : Fin 1 => 0) (fun _ => 1)
        (fun _ => 0) (fun _ => 0)
      = -0.5 * (((10 : ℝ) ^ (1 : ℝ) - (10 : ℝ) ^ (0 : ℝ)) ^ 2 / 0
          + Real.log (2 * Real.pi * 0)) ∧
    log_likelihood_sim ((0 : ℝ), (0 : ℝ)) (fun _ : Fin 1 => 0) (fun _ => 1)
        (fun _ => 0)
      = -0.5 * (((10 : ℝ) ^ (1 : ℝ) - (10 : ℝ) ^ (0 : ℝ)) ^ 2 / 0) ∧
    log_likelihood_sim ((0 : ℝ), (0 : ℝ)) (fun _ : Fin 1 => 0) (fun _ => 1)
        (fun _ => 0) = 0 := by
  refine ⟨fun m model x => ?_, ?_, ?_, ?_⟩
  · simp [sigma2]
  · simp only [log_likelihood, log_model, Fin.sum_univ_one]
    norm_num
  · simp only [log_likelihood_sim, log_model, Fin.sum_univ_one]
    norm_num
  · simp only [log_likelihood_sim, log_model, Fin.sum_univ_one]
    norm_num

/-- C10: in both simulation fitting routines the per-point y-uncertainty
handed to the likelihood is the constant array with every entry
1e5 / 1e7 = 0.01, independent of the input data rho_150pc, while
y itself is log10(rho_150pc / 1e7). -/
theorem sim_fit_yerr_constant {k : ℕ} (r_p rho_150pc : Fin k → ℝ) :
    (∀ i : Fin k, sim_fit_yerr k i = 1e5 / 1e7) ∧
    (∀ i : Fin k, sim_fit_yerr k i = 0.01) ∧
    (∀ i : Fin k, sim_fit_y rho_150pc i = Real.logb 10 (rho_150pc i / 1e7)) ∧
    (run_best_fit_for_sim_call r_p rho_150pc).objective = (fun theta =>
      -log_likelihood_sim theta (sim_fit_x r_p) (sim_fit_y rho_150pc)
        (sim_fit_yerr k)) ∧
    (run_best_fit_for_sim_with_mcmc_call r_p rho_150pc).objective
      = (fun theta =>
        -log_likelihood_sim theta (sim_fit_x r_p) (sim_fit_y rho_150pc)
          (sim_fit_yerr k)) := by
  refine ⟨fun i => ?_, fun i => ?_, fun i => rfl, rfl, rfl⟩
  · simp [sim_fit_yerr]
  · simp only [sim_fit_yerr]
    norm_num

end DensityPericenterFit
